import Mathlib

/-!
Verification development for the FABRIK inverse-kinematics solver
(`src/ik/src/solver_fabrik.c`).

The C source is shallowly embedded here.  Scalars (`ikreal`) are modelled as
exact rationals, following the specification's statement that vector and
quaternion operations are exact.  The quaternion/vector primitives from
`ik/quat.inl` and `ik/vec3.inl` that involve square roots (length, normalize,
angle-of, rotation) are not part of the analyzed source; they are kept fully
parametric in a `GeomPrims` structure.  The bone-space transform functions
from `ik/transform.h` are likewise parametric (`TransformEnv`).  All state
mutation in the C code (bone rotations, the target-position array) is
modelled by explicit state passing.
-/

/-- Exact scalar model of `ikreal`. -/
abbrev ikreal := ℚ

/-- Modelled from the spec: `union ik_vec3`, a 3-component vector. -/
structure Vec3 where
  x : ikreal
  y : ikreal
  z : ikreal
deriving DecidableEq

/-- Modelled from the spec: quaternion (`union ik_quat`); components are never
inspected by the solver itself, only passed to the parametric primitives. -/
structure Quat where
  qx : ikreal
  qy : ikreal
  qz : ikreal
  qw : ikreal
deriving DecidableEq

/-- Modelled from the spec: `ik_vec3_set_zero`. -/
def vzero : Vec3 := ⟨0, 0, 0⟩

/-- Modelled from the spec: `ik_vec3_add_vec3` (componentwise, exact). -/
def vadd (a b : Vec3) : Vec3 := ⟨a.x + b.x, a.y + b.y, a.z + b.z⟩

/-- Modelled from the spec: `ik_vec3_sub_vec3` (componentwise, exact). -/
def vsub (a b : Vec3) : Vec3 := ⟨a.x - b.x, a.y - b.y, a.z - b.z⟩

/-- Modelled from the spec: `ik_vec3_mul_scalar` (exact). -/
def vmulScalar (a : Vec3) (s : ikreal) : Vec3 := ⟨a.x * s, a.y * s, a.z * s⟩

/-- Modelled from the spec: `ik_vec3_div_scalar` (exact). -/
def vdivScalar (a : Vec3) (s : ikreal) : Vec3 := ⟨a.x / s, a.y / s, a.z / s⟩

/-- Modelled from the spec: `ik_vec3_negate`. -/
def vneg (a : Vec3) : Vec3 := ⟨-a.x, -a.y, -a.z⟩

/-- Modelled from the spec: the square-root-dependent vector/quaternion
primitives of `ik/vec3.inl` and `ik/quat.inl`, which are external to the
analyzed source.  They are kept fully parametric. -/
structure GeomPrims where
  /-- `ik_vec3_length` -/
  vlen : Vec3 → ikreal
  /-- `ik_vec3_normalize` -/
  vnormalize : Vec3 → Vec3
  /-- `ik_quat_angle_of` -/
  angle_of : Vec3 → Quat
  /-- `ik_quat_mul_quat` (first argument mutated in C) -/
  qmul : Quat → Quat → Quat
  /-- `ik_quat_mul_quat_conj` -/
  qmulConj : Quat → Quat → Quat
  /-- `ik_vec3_rotate_quat` -/
  vrot : Vec3 → Quat → Vec3
  /-- `ik_vec3_rotate_quat_conj` -/
  vrotConj : Vec3 → Quat → Vec3

/-- Modelled from the spec: the position-space conversion functions
`ik_transform_bone_pos_g2l` / `ik_transform_bone_pos_l2g` of `ik/transform.h`
(external to the analyzed source).  Spaces are identified by natural-number
ids (a bone's own space, or a parent space). -/
structure TransformEnv where
  g2l : Vec3 → Nat → Nat → Vec3
  l2g : Vec3 → Nat → Nat → Vec3

/-- Modelled from the spec: `struct ik_effector` as read by the solver:
target position, weight, and the `IK_EFFECTOR_WEIGHT_NLERP` feature bit. -/
structure Effector where
  target_position : Vec3
  weight : ikreal
  features_weight_nlerp : Bool
deriving DecidableEq

/-- Modelled from the spec: `struct ik_bone` as read/mutated by the solver.
`id` stands for the bone's identity (its address in C), `parent` for the id
of its parent bone (`ik_bone_get_parent`).  `pole` is whether a pole
constraint is attached (`bone->pole != NULL`). -/
structure Bone where
  id : Nat
  parent : Nat
  position : Vec3
  rotation : Quat
  length : ikreal
  effector : Option Effector
  pole : Bool
deriving DecidableEq

/-- Default bone used to totalize list accesses that the C code performs
through pointers under structural invariants. -/
def bone0 : Bone := ⟨0, 0, vzero, ⟨0, 0, 0, 1⟩, 0, none, false⟩

/-- Default effector for totalizing `tip_bone->effector` dereferences. -/
def eff0 : Effector := ⟨vzero, 0, false⟩

mutual
/-- Modelled from the spec: `struct ik_chain`: an ordered bone sequence (tip
bone first, base bone last) plus child chains. -/
inductive Chain where
  | mk (bones : List Bone) (children : ChainList)

/-- Child-chain list of a chain (`CHAIN_FOR_EACH_CHILD` order). -/
inductive ChainList where
  | nil
  | cons (head : Chain) (tail : ChainList)
end

/-- Bones of a chain, tip first. -/
def Chain.bones : Chain → List Bone
  | .mk bs _ => bs

/-- Children of a chain. -/
def Chain.children : Chain → ChainList
  | .mk _ cs => cs

/-- Number of chains in a child list (`chain_child_count`). -/
def clLength : ChainList → Nat
  | .nil => 0
  | .cons _ cs => clLength cs + 1

/-- `chain_get_tip_bone`: the first bone of the chain. -/
def chain_get_tip_bone (c : Chain) : Bone := c.bones.headD bone0

/-- `chain_get_base_bone`: the last bone of the chain. -/
def chain_get_base_bone (c : Chain) : Bone := c.bones.getLastD bone0

/-- `chain_child_count`. -/
def chain_child_count (c : Chain) : Nat := clLength c.children

/-- Log messages observed by the embedding (`ik_log_printf` calls of the
pole validator). -/
inductive LogMsg where
  | poleWarn (boneId : Nat)
  | poleSummary
deriving DecidableEq

/-- Bones of a chain that trigger the per-bone pole warning: every bone other
than the chain's tip bone (the first element) whose `pole` is attached.
This is the bone scan of `validate_poles_recursive` (lines 40-48). -/
def poleScanBones (bones : List Bone) : List Bone :=
  match bones with
  | [] => []
  | _tip :: rest => rest.filter (fun b => b.pole)

mutual
/-- Embedding of `validate_poles_recursive`: returns the number of misplaced
poles found and the warning messages emitted, children first, then the
chain's own bone scan. -/
def validate_poles_recursive : Chain → Nat × List LogMsg
  | .mk bones children =>
    let r := validatePolesChildren children
    let own := poleScanBones bones
    (r.1 + own.length, r.2 ++ own.map (fun b => LogMsg.poleWarn b.id))

/-- Child loop of `validate_poles_recursive` (`CHAIN_FOR_EACH_CHILD`). -/
def validatePolesChildren : ChainList → Nat × List LogMsg
  | .nil => (0, [])
  | .cons c cs =>
    let r := validate_poles_recursive c
    let rs := validatePolesChildren cs
    (r.1 + rs.1, r.2 ++ rs.2)
end

/-- Embedding of `validate_poles`: runs the recursive scan and emits the
summary warning when at least one misplaced pole was found.  The C function
takes the solver by `const` pointer and only logs; the embedding accordingly
returns only the emitted messages. -/
def validate_poles (c : Chain) : List LogMsg :=
  let r := validate_poles_recursive c
  if r.1 ≠ 0 then r.2 ++ [LogMsg.poleSummary] else r.2

mutual
/-- Specification-side definition: the bones carrying a pole constraint that
are not the tip bone of their chain, over the whole tree, in the validator's
traversal order (children first). -/
def misplacedPoleBones : Chain → List Bone
  | .mk bones children =>
    misplacedPoleBonesList children ++ poleScanBones bones

/-- List version of `misplacedPoleBones`. -/
def misplacedPoleBonesList : ChainList → List Bone
  | .nil => []
  | .cons c cs => misplacedPoleBones c ++ misplacedPoleBonesList cs
end

mutual
/-- Embedding of `store_effector_bones_recursive`: visits children first,
then appends the chain itself when it has no children.  The C version writes
through a moving pointer; the embedding returns the list written. -/
def store_effector_bones_recursive : Chain → List Chain
  | .mk bones children =>
    storeEffectorChildren children ++
      (if chain_child_count (.mk bones children) = 0
       then [Chain.mk bones children] else [])

/-- Child loop of `store_effector_bones_recursive`. -/
def storeEffectorChildren : ChainList → List Chain
  | .nil => []
  | .cons c cs => store_effector_bones_recursive c ++ storeEffectorChildren cs
end

mutual
/-- Specification-side definition: all chains of the tree in depth-first,
children-before-self (post-order) traversal order. -/
def chainsPostorder : Chain → List Chain
  | .mk bones children => chainsPostorderList children ++ [Chain.mk bones children]

/-- List version of `chainsPostorder`. -/
def chainsPostorderList : ChainList → List Chain
  | .nil => []
  | .cons c cs => chainsPostorder c ++ chainsPostorderList cs
end

/-- Specification-side definition: a leaf chain is one with zero children. -/
def isLeafChain (c : Chain) : Bool :=
  match c with
  | .mk _ .nil => true
  | .mk _ (.cons _ _) => false

mutual
/-- Modelled from the spec: `num_effectors` is computed by
`subtree_leaves(subtree)` in `fabrik_init`; `subtree_leaves` and
`chain_tree_build` are not part of the analyzed source.  Per spec §4.1 the
number of effectors equals the number of leaf chains of the built chain
tree, which this function counts. -/
def count_leaf_chains : Chain → Nat
  | .mk _ .nil => 1
  | .mk _ (.cons c cs) => countLeafChainsList (.cons c cs)

/-- List version of `count_leaf_chains`. -/
def countLeafChainsList : ChainList → Nat
  | .nil => 0
  | .cons c cs => count_leaf_chains c + countLeafChainsList cs
end

/-- Embedding of the per-effector body of `calculate_target_data`
(lines 91-151): computes the actual target position stored in
`solver->target_positions[i]` for one effector chain. -/
def calcTargetForChain (P : GeomPrims) (env : TransformEnv)
    (root_bone base_bone : Bone) (eff_chain : Chain) : Vec3 :=
  let tip_bone := chain_get_tip_bone eff_chain
  let eff := tip_bone.effector.getD eff0
  let target0 := env.g2l eff.target_position root_bone.parent base_bone.parent
  let tip_pos := env.l2g tip_bone.position tip_bone.id base_bone.parent
  let target1 := vadd (vmulScalar (vsub target0 tip_pos) eff.weight) tip_pos
  if eff.features_weight_nlerp then
    let subbase_bone := chain_get_base_bone eff_chain
    let to_tip := env.l2g tip_bone.position tip_bone.id subbase_bone.id
    let to_eff := env.g2l eff.target_position root_bone.parent subbase_bone.id
    let distance_to_target :=
      P.vlen to_eff * eff.weight + P.vlen to_tip * (1 - eff.weight)
    let target2 := env.g2l target1 base_bone.parent subbase_bone.id
    let target3 := vmulScalar (P.vnormalize target2) distance_to_target
    env.l2g target3 subbase_bone.id base_bone.parent
  else
    target1

/-- Algorithm configuration (`struct ik_algorithm` fields read by the
solver): `max_iterations` is a non-negative integer per spec §6. -/
structure Alg where
  max_iterations : Nat
  tolerance : ikreal
deriving DecidableEq

/-- Solver state (`struct ik_solver_fabrik` plus the `root_bone` and
`algorithm` members of `IK_SOLVER_HEAD` that the solver reads). -/
structure FabrikSolver where
  chain_tree : Chain
  effector_chains : List Chain
  target_positions : List Vec3
  root_bone : Bone
  algorithm : Alg

/-- Embedding of `calculate_target_data`: recomputes the whole
target-position array, one entry per effector chain, indexed identically to
the effector-chain list. -/
def calculate_target_data (P : GeomPrims) (env : TransformEnv)
    (s : FabrikSolver) : FabrikSolver :=
  let ts := s.effector_chains.map
    (calcTargetForChain P env s.root_bone (chain_get_base_bone s.chain_tree))
  { s with target_positions := ts }

/-- Embedding of the `CHAIN_FOR_EACH_BONE_PAIR` loop of
`solve_chain_forwards_recurse` (lines 216-273).  `pending` holds the bones
between the tip and the base (tip excluded), nearest-to-tip first; `cur` is
the previously processed bone (the `child` of the next pair, already
carrying its own rotation update); `target` is the working target.  Returns
the final target and the processed bones, tip side first. -/
def solvePairs (P : GeomPrims) : List Bone → Bone → Vec3 → Vec3 × List Bone
  | [], cur, target => (target, [cur])
  | bone :: rest, cur, target =>
    let target1 : Vec3 := ⟨target.x, target.y, target.z + bone.length⟩
    let child_tail_pos : Vec3 :=
      ⟨cur.position.x, cur.position.y, cur.position.z + bone.length⟩
    let offset_rot := P.angle_of child_tail_pos
    let delta := P.qmulConj (P.angle_of target1) offset_rot
    let boneRot := P.qmul bone.rotation delta
    let cur' := { cur with rotation := P.qmulConj cur.rotation delta }
    let target2 := P.vrotConj target1 delta
    let target3 := vsub target2 child_tail_pos
    let target4 := P.vrot target3 boneRot
    let target5 := vadd target4 bone.position
    let r := solvePairs P rest { bone with rotation := boneRot } target5
    (r.1, cur' :: r.2)

/-- Embedding of the tip-bone block of `solve_chain_forwards_recurse`
(lines 185-214) followed by the bone-pair loop: rotates the tip bone towards
the working target and walks the remaining bones toward the base. -/
def solveTipAndPairs (P : GeomPrims) (bones : List Bone) (target : Vec3) :
    Vec3 × List Bone :=
  match bones with
  | [] => (target, [])
  | tip :: rest =>
    let delta := P.angle_of target
    let tipRot := P.qmul tip.rotation delta
    let t1 : Vec3 := ⟨0, 0, P.vlen target⟩
    let t2 : Vec3 := ⟨t1.x, t1.y, t1.z - tip.length⟩
    let t3 := P.vrot t2 tipRot
    let t4 := vadd t3 tip.position
    solvePairs P rest { tip with rotation := tipRot } t4

mutual
/-- Embedding of `solve_chain_forwards_recurse` (lines 155-276).  The
target-store pointer is modelled as a list from which leaf chains pop
entries; bone-rotation mutation is modelled by returning the updated chain.
Returns (accumulated base target, updated chain, remaining store). -/
def solve_chain_forwards_recurse (P : GeomPrims) (env : TransformEnv)
    (base_bone : Bone) : Chain → List Vec3 → Vec3 × Chain × List Vec3
  | .mk bones children, store =>
    let r := solveChildrenAcc P env base_bone children vzero 0 store
    let w : Vec3 × ChainList × List Vec3 :=
      if r.2.1 = 0 then
        (env.g2l (r.2.2.2.headD vzero) base_bone.parent
          (chain_get_tip_bone (.mk bones children)).id,
         r.2.2.1, r.2.2.2.tail)
      else
        (vdivScalar r.1 (r.2.1 : ikreal), r.2.2.1, r.2.2.2)
    let tp := solveTipAndPairs P bones w.1
    (tp.1, Chain.mk tp.2 w.2.1, w.2.2)

/-- The `CHAIN_FOR_EACH_CHILD` loop of `solve_chain_forwards_recurse`
(lines 167-171): solves each child in order, accumulating the sum of the
returned base positions into `acc` and the child count into `n`. -/
def solveChildrenAcc (P : GeomPrims) (env : TransformEnv) (base_bone : Bone) :
    ChainList → Vec3 → Nat → List Vec3 → Vec3 × Nat × ChainList × List Vec3
  | .nil, acc, n, store => (acc, n, .nil, store)
  | .cons c cs, acc, n, store =>
    let r := solve_chain_forwards_recurse P env base_bone c store
    let rs := solveChildrenAcc P env base_bone cs (vadd acc r.1) (n + 1) r.2.2
    (rs.1, rs.2.1, .cons r.2.1 rs.2.2.1, rs.2.2.2)
end

/-- The working target of a chain, as computed by the first phase of
`solve_chain_forwards_recurse` (lines 160-181): for a branch chain, the
child base positions are accumulated and divided by the child count; for a
leaf chain, the next precomputed target is popped from the store and
transformed.  Also returns the updated children and the remaining store. -/
def chainWorkingTarget (P : GeomPrims) (env : TransformEnv) (base_bone : Bone)
    (bones : List Bone) (children : ChainList) (store : List Vec3) :
    Vec3 × ChainList × List Vec3 :=
  let r := solveChildrenAcc P env base_bone children vzero 0 store
  if r.2.1 = 0 then
    (env.g2l (r.2.2.2.headD vzero) base_bone.parent
      (chain_get_tip_bone (.mk bones children)).id,
     r.2.2.1, r.2.2.2.tail)
  else
    (vdivScalar r.1 (r.2.1 : ikreal), r.2.2.1, r.2.2.2)

/-- Specification-side definition: the sequence of base-target vectors
returned by recursively solving each child chain in order, threading the
target store. -/
def childBaseTargets (P : GeomPrims) (env : TransformEnv) (base_bone : Bone) :
    ChainList → List Vec3 → List Vec3
  | .nil, _ => []
  | .cons c cs, store =>
    let r := solve_chain_forwards_recurse P env base_bone c store
    r.1 :: childBaseTargets P env base_bone cs r.2.2

/-- Specification-side definition: sum of a list of vectors. -/
def vsumList : List Vec3 → Vec3
  | [] => vzero
  | v :: vs => vadd v (vsumList vs)

/-- Embedding of `solve_chain_forwards` (lines 277-290): runs the recursive
solve from the whole tree's base bone over the target-position array, then
reflects the returned target about the base bone's position.  Returns the
reflected target and the solver with the mutated chain tree. -/
def solve_chain_forwards (P : GeomPrims) (env : TransformEnv)
    (s : FabrikSolver) : Vec3 × FabrikSolver :=
  let base_bone := chain_get_base_bone s.chain_tree
  let r := solve_chain_forwards_recurse P env base_bone s.chain_tree s.target_positions
  let t1 := vsub r.1 base_bone.position
  let t2 := vneg t1
  let t3 := vadd t2 base_bone.position
  (t3, { s with chain_tree := r.2.1 })

/-- Embedding of `all_targets_reached` (lines 376-393): the entire body is
commented out in the source ("TODO broken"); the function unconditionally
returns 0 (not converged). -/
def all_targets_reached (_solver : FabrikSolver) (_tol_squared : ikreal) : Int :=
  0

/-- Embedding of the `while (iteration-- > 0)` loop of `fabrik_solve`
(lines 406-417).  The first argument is the value of the C variable
`iteration` at the loop test (non-negative while looping).  Returns the
final value of `iteration` (−1 when the budget is exhausted, since the
post-decrement runs on the failing test too), the solver state after the
performed sweeps, and the number of `solve_chain_forwards` calls made. -/
def fabrikSolveLoop (P : GeomPrims) (env : TransformEnv) (tol_squared : ikreal) :
    Nat → FabrikSolver → Nat → Int × FabrikSolver × Nat
  | 0, s, sweeps => (-1, s, sweeps)
  | n + 1, s, sweeps =>
    let r := solve_chain_forwards P env s
    if all_targets_reached r.2 tol_squared ≠ 0 then
      ((n : Int), r.2, sweeps + 1)
    else
      fabrikSolveLoop P env tol_squared n r.2 (sweeps + 1)

/-- Embedding of `fabrik_solve` (lines 396-420): computes target data once,
runs the iteration loop, and returns `alg->max_iterations - iteration`
together with the final solver state and the number of forward sweeps
performed. -/
def fabrik_solve (P : GeomPrims) (env : TransformEnv) (s : FabrikSolver) :
    Int × FabrikSolver × Nat :=
  let alg := s.algorithm
  let tol_squared := alg.tolerance * alg.tolerance
  let s1 := calculate_target_data P env s
  let r := fabrikSolveLoop P env tol_squared alg.max_iterations s1 0
  ((alg.max_iterations : Int) - r.1, r.2.1, r.2.2)

/-- Observable events of `fabrik_init` (lines 329-362): external calls made
on each control path, in order. -/
inductive InitEvent where
  | chainTreeInit
  | chainTreeDeinit
  | freeEffectorChains
  | storeEffectorChains
  | validatePoles
  | logDebug
deriving DecidableEq

/-- Embedding of `fabrik_init` (lines 329-362).  `chain_tree_build`,
`subtree_leaves` and `MALLOC` are external to the analyzed source; their
outcomes are modelled as boolean parameters (`true` = success).  Returns the
C return value (0 success, −1 failure) and the ordered list of external
calls performed, which records the teardown behaviour of the `goto` failure
paths. -/
def fabrik_init (buildOk allocEffectorChains allocTargetPositions : Bool) :
    Int × List InitEvent :=
  if !buildOk then
    (-1, [.chainTreeInit, .chainTreeDeinit])
  else if !allocEffectorChains then
    (-1, [.chainTreeInit, .chainTreeDeinit])
  else if !allocTargetPositions then
    (-1, [.chainTreeInit, .freeEffectorChains, .chainTreeDeinit])
  else
    (0, [.chainTreeInit, .storeEffectorChains, .validatePoles, .logDebug])

/-- Identity transform environment (used to instantiate witnesses). -/
def idEnv : TransformEnv := ⟨fun v _ _ => v, fun v _ _ => v⟩

/-- Trivial geometric primitives (used to instantiate witnesses): length is
constantly 1, normalize is the identity, rotations do nothing. -/
def onePrims : GeomPrims :=
  ⟨fun _ => 1, fun v => v, fun _ => ⟨0, 0, 0, 1⟩,
   fun a _ => a, fun a _ => a, fun v _ => v, fun v _ => v⟩

theorem vaddZeroLeft (v : Vec3) : vadd vzero v = v := by
  cases v; simp [vadd, vzero]

theorem vaddZeroRight (v : Vec3) : vadd v vzero = v := by
  cases v; simp [vadd, vzero]

theorem vaddAssoc (a b c : Vec3) : vadd (vadd a b) c = vadd a (vadd b c) := by
  cases a; cases b; cases c; simp only [vadd, Vec3.mk.injEq]
  refine ⟨by ring, by ring, by ring⟩

theorem solveChildrenAcc_spec (P : GeomPrims) (env : TransformEnv)
    (base_bone : Bone) :
    (cs : ChainList) → ∀ (acc : Vec3) (n : Nat) (store : List Vec3),
      (solveChildrenAcc P env base_bone cs acc n store).1
          = vadd acc (vsumList (childBaseTargets P env base_bone cs store))
        ∧ (solveChildrenAcc P env base_bone cs acc n store).2.1 = n + clLength cs
  | .nil => by
      intro acc n store
      simp [solveChildrenAcc, childBaseTargets, vsumList, vaddZeroRight, clLength]
  | .cons c cs => by
      intro acc n store
      simp only [solveChildrenAcc, childBaseTargets, vsumList, clLength]
      refine ⟨?_, ?_⟩
      · rw [(solveChildrenAcc_spec P env base_bone cs _ _ _).1, vaddAssoc]
      · rw [(solveChildrenAcc_spec P env base_bone cs _ _ _).2]; omega

theorem fabrikSolveLoop_exhausts (P : GeomPrims) (env : TransformEnv)
    (t : ikreal) (n : Nat) :
    ∀ (s : FabrikSolver) (k : Nat),
      (fabrikSolveLoop P env t n s k).1 = -1
        ∧ (fabrikSolveLoop P env t n s k).2.2 = k + n := by
  induction n with
  | zero => intro s k; simp [fabrikSolveLoop]
  | succ n ih =>
      intro s k
      simp only [fabrikSolveLoop, all_targets_reached, ne_eq, not_true_eq_false,
        reduceIte]
      refine ⟨(ih _ _).1, ?_⟩
      rw [(ih _ _).2]; omega

/-- Claim C2: one call to `fabrik_solve` performs exactly `max_iterations`
forward sweeps (calls of `solve_chain_forwards`) and never exits the
iteration loop early, because `all_targets_reached` returns 0 (not
converged) for every solver state and every tolerance. -/
theorem fabrik_solve_runs_exactly_max_iterations_sweeps :
    (∀ (s : FabrikSolver) (tol_squared : ikreal),
        all_targets_reached s tol_squared = 0)
    ∧ ∀ (P : GeomPrims) (env : TransformEnv) (s : FabrikSolver),
        (fabrik_solve P env s).2.2 = s.algorithm.max_iterations := by
  refine ⟨fun _ _ => rfl, fun P env s => ?_⟩
  simp only [fabrik_solve]
  rw [(fabrikSolveLoop_exhausts P env _ _ _ _).2]
  omega

/-- Claim C1 (code bug): `fabrik_solve` is supposed to return the number of
iterations actually performed, but when the loop exhausts its budget the
post-decrement of `while (iteration-- > 0)` leaves `iteration == -1`, so
`alg->max_iterations - iteration` evaluates to `max_iterations + 1` — one
more than the number of forward sweeps performed — for every solver state
and configuration. -/
theorem fabrik_solve_returns_max_iterations_plus_one
    (P : GeomPrims) (env : TransformEnv) (s : FabrikSolver) :
    (fabrik_solve P env s).1 = (s.algorithm.max_iterations : Int) + 1 := by
  simp only [fabrik_solve]
  rw [(fabrikSolveLoop_exhausts P env _ _ _ _).1]
  ring

/-- Claim C10: with `max_iterations = 0`, `fabrik_solve` performs zero
forward sweeps and leaves the chain tree (hence every bone rotation)
unchanged, but still unconditionally calls `calculate_target_data`,
overwriting the stored target-position array for every effector, and
returns 1 rather than 0. -/
theorem fabrik_solve_zero_max_iterations
    (P : GeomPrims) (env : TransformEnv) (s : FabrikSolver)
    (h : s.algorithm.max_iterations = 0) :
    fabrik_solve P env s = (1, calculate_target_data P env s, 0)
    ∧ (calculate_target_data P env s).chain_tree = s.chain_tree
    ∧ (calculate_target_data P env s).target_positions
        = s.effector_chains.map
            (calcTargetForChain P env s.root_bone (chain_get_base_bone s.chain_tree)) := by
  refine ⟨?_, rfl, rfl⟩
  simp [fabrik_solve, h, fabrikSolveLoop]

/-- Witness for C10 at a concrete solver with `max_iterations = 0`. -/
theorem fabrik_solve_zero_max_iterations_witness :
    (FabrikSolver.mk (Chain.mk [bone0] .nil) [] [] bone0 ⟨0, 0⟩).algorithm.max_iterations = 0
    ∧ (fabrik_solve onePrims idEnv (FabrikSolver.mk (Chain.mk [bone0] .nil) [] [] bone0 ⟨0, 0⟩)
        = (1, calculate_target_data onePrims idEnv
            (FabrikSolver.mk (Chain.mk [bone0] .nil) [] [] bone0 ⟨0, 0⟩), 0)
      ∧ (calculate_target_data onePrims idEnv
            (FabrikSolver.mk (Chain.mk [bone0] .nil) [] [] bone0 ⟨0, 0⟩)).chain_tree
          = (FabrikSolver.mk (Chain.mk [bone0] .nil) [] [] bone0 ⟨0, 0⟩).chain_tree
      ∧ (calculate_target_data onePrims idEnv
            (FabrikSolver.mk (Chain.mk [bone0] .nil) [] [] bone0 ⟨0, 0⟩)).target_positions
          = (FabrikSolver.mk (Chain.mk [bone0] .nil) [] [] bone0 ⟨0, 0⟩).effector_chains.map
              (calcTargetForChain onePrims idEnv
                (FabrikSolver.mk (Chain.mk [bone0] .nil) [] [] bone0 ⟨0, 0⟩).root_bone
                (chain_get_base_bone
                  (FabrikSolver.mk (Chain.mk [bone0] .nil) [] [] bone0 ⟨0, 0⟩).chain_tree))) :=
  ⟨rfl, fabrik_solve_zero_max_iterations onePrims idEnv _ rfl⟩

/-- Claim C6: `solve_chain_forwards` returns the reflection of the recursive
solve's result about the base bone's position: with recursion result `t` and
base position `p`, the wrapper returns `p - (t - p) = 2p - t`. -/
theorem solve_chain_forwards_reflects_about_base
    (P : GeomPrims) (env : TransformEnv) (s : FabrikSolver) :
    (solve_chain_forwards P env s).1
        = vsub (chain_get_base_bone s.chain_tree).position
            (vsub (solve_chain_forwards_recurse P env (chain_get_base_bone s.chain_tree)
                s.chain_tree s.target_positions).1
              (chain_get_base_bone s.chain_tree).position)
    ∧ (solve_chain_forwards P env s).1
        = vsub (vmulScalar (chain_get_base_bone s.chain_tree).position 2)
            (solve_chain_forwards_recurse P env (chain_get_base_bone s.chain_tree)
                s.chain_tree s.target_positions).1 := by
  constructor <;>
    · simp only [solve_chain_forwards, vsub, vneg, vadd, vmulScalar, Vec3.mk.injEq]
      refine ⟨by ring, by ring, by ring⟩

/-- Empty default chain for totalizing indexed accesses. -/
def chain0 : Chain := Chain.mk [] ChainList.nil

theorem clLength_ne_zero (cs : ChainList) (h : cs ≠ ChainList.nil) :
    clLength cs ≠ 0 := by
  cases cs with
  | nil => exact absurd rfl h
  | cons c cs => simp [clLength]

/-- Claim C3: in `solve_chain_forwards_recurse`, for every chain with at
least one child, the working target used to rotate the chain's tip bone
equals the arithmetic mean of the base-target vectors returned by
recursively solving each child chain; in particular, for two children with
resolved base targets `A` and `B` it equals `(A+B)/2` exactly.  The final
conjunct records that the recursive solve indeed rotates the tip bone (and
walks the bone pairs) using exactly this working target. -/
theorem working_target_is_mean_of_child_targets
    (P : GeomPrims) (env : TransformEnv) (base_bone : Bone)
    (bones : List Bone) (cs : ChainList) (store : List Vec3)
    (h : cs ≠ ChainList.nil) :
    (chainWorkingTarget P env base_bone bones cs store).1
        = vdivScalar (vsumList (childBaseTargets P env base_bone cs store))
            (clLength cs : ikreal)
    ∧ (∀ c1 c2, cs = ChainList.cons c1 (ChainList.cons c2 ChainList.nil) →
        (chainWorkingTarget P env base_bone bones cs store).1
          = vdivScalar
              (vadd (solve_chain_forwards_recurse P env base_bone c1 store).1
                (solve_chain_forwards_recurse P env base_bone c2
                  (solve_chain_forwards_recurse P env base_bone c1 store).2.2).1)
              2)
    ∧ solve_chain_forwards_recurse P env base_bone (Chain.mk bones cs) store
        = ((solveTipAndPairs P bones (chainWorkingTarget P env base_bone bones cs store).1).1,
           Chain.mk
             (solveTipAndPairs P bones (chainWorkingTarget P env base_bone bones cs store).1).2
             (chainWorkingTarget P env base_bone bones cs store).2.1,
           (chainWorkingTarget P env base_bone bones cs store).2.2) := by
  have hlen := clLength_ne_zero cs h
  have hcond : ¬((solveChildrenAcc P env base_bone cs vzero 0 store).2.1 = 0) := by
    rw [(solveChildrenAcc_spec P env base_bone cs vzero 0 store).2]
    omega
  have hmean : (chainWorkingTarget P env base_bone bones cs store).1
      = vdivScalar (vsumList (childBaseTargets P env base_bone cs store))
          (clLength cs : ikreal) := by
    simp only [chainWorkingTarget]
    rw [if_neg hcond]
    rw [(solveChildrenAcc_spec P env base_bone cs vzero 0 store).1,
      (solveChildrenAcc_spec P env base_bone cs vzero 0 store).2, vaddZeroLeft]
    simp [Nat.zero_add]
  refine ⟨hmean, ?_, ?_⟩
  · intro c1 c2 hcs
    subst hcs
    rw [hmean]
    simp [childBaseTargets, vsumList, clLength, vaddZeroRight]
  · unfold solve_chain_forwards_recurse chainWorkingTarget
    rfl

/-- Single-bone leaf chain used in witnesses. -/
def chainW : Chain := Chain.mk [bone0] ChainList.nil

/-- Two-child list used in the C3 witness. -/
def csW : ChainList := ChainList.cons chainW (ChainList.cons chainW ChainList.nil)

/-- Witness for C3 at a concrete two-child chain. -/
theorem working_target_is_mean_of_child_targets_witness :
    (csW ≠ ChainList.nil)
    ∧ ((chainWorkingTarget onePrims idEnv bone0 [bone0] csW []).1
          = vdivScalar (vsumList (childBaseTargets onePrims idEnv bone0 csW []))
              (clLength csW : ikreal)
      ∧ (∀ c1 c2, csW = ChainList.cons c1 (ChainList.cons c2 ChainList.nil) →
          (chainWorkingTarget onePrims idEnv bone0 [bone0] csW []).1
            = vdivScalar
                (vadd (solve_chain_forwards_recurse onePrims idEnv bone0 c1 []).1
                  (solve_chain_forwards_recurse onePrims idEnv bone0 c2
                    (solve_chain_forwards_recurse onePrims idEnv bone0 c1 []).2.2).1)
                2)
      ∧ solve_chain_forwards_recurse onePrims idEnv bone0 (Chain.mk [bone0] csW) []
          = ((solveTipAndPairs onePrims [bone0]
                (chainWorkingTarget onePrims idEnv bone0 [bone0] csW []).1).1,
             Chain.mk
               (solveTipAndPairs onePrims [bone0]
                 (chainWorkingTarget onePrims idEnv bone0 [bone0] csW []).1).2
               (chainWorkingTarget onePrims idEnv bone0 [bone0] csW []).2.1,
             (chainWorkingTarget onePrims idEnv bone0 [bone0] csW []).2.2)) :=
  ⟨fun hh => ChainList.noConfusion hh,
   working_target_is_mean_of_child_targets onePrims idEnv bone0 [bone0] csW []
     (fun hh => ChainList.noConfusion hh)⟩

theorem lerp_weight_zero (a b : Vec3) :
    vadd (vmulScalar (vsub a b) 0) b = b := by
  cases a; cases b; simp only [vsub, vmulScalar, vadd, Vec3.mk.injEq]
  refine ⟨by ring, by ring, by ring⟩

theorem lerp_weight_one (a b : Vec3) :
    vadd (vmulScalar (vsub a b) 1) b = a := by
  cases a; cases b; simp only [vsub, vmulScalar, vadd, Vec3.mk.injEq]
  refine ⟨by ring, by ring, by ring⟩

theorem calcTargetForChain_weight_zero
    (P : GeomPrims) (env : TransformEnv) (root_bone base_bone : Bone)
    (ec : Chain)
    (hw : ((chain_get_tip_bone ec).effector.getD eff0).weight = 0)
    (HgL : ∀ (v : Vec3) (a b c : Nat),
      env.g2l (env.l2g v a b) b c = env.l2g v a c)
    (HlL : ∀ (v : Vec3) (a b c : Nat),
      env.l2g (env.l2g v a b) b c = env.l2g v a c)
    (Hnorm : ∀ v : Vec3, vmulScalar (P.vnormalize v) (P.vlen v) = v) :
    calcTargetForChain P env root_bone base_bone ec
      = env.l2g (chain_get_tip_bone ec).position (chain_get_tip_bone ec).id
          base_bone.parent := by
  simp only [calcTargetForChain, hw, lerp_weight_zero]
  cases hf : ((chain_get_tip_bone ec).effector.getD eff0).features_weight_nlerp
  · simp
  · simp only [if_pos]
    rw [HgL]
    have hd : P.vlen (env.g2l ((chain_get_tip_bone ec).effector.getD eff0).target_position
          root_bone.parent (chain_get_base_bone ec).id) * 0
        + P.vlen (env.l2g (chain_get_tip_bone ec).position (chain_get_tip_bone ec).id
            (chain_get_base_bone ec).id) * (1 - 0)
        = P.vlen (env.l2g (chain_get_tip_bone ec).position (chain_get_tip_bone ec).id
            (chain_get_base_bone ec).id) := by ring
    rw [hd, Hnorm, HlL]

/-- Claim C4: in `calculate_target_data`, for every effector whose weight is
0, the actual target stored in the target-position array equals the tip
bone's current position transformed into the base bone's parent space,
exactly, for any configured effector target position.  The transform laws
`HgL`/`HlL` (space-conversion composition) and `Hnorm`
(normalize-then-rescale-by-length recovers the vector, exact arithmetic) are
the assumed semantics of the external transform/vector collaborators. -/
theorem calculate_target_data_weight_zero
    (P : GeomPrims) (env : TransformEnv) (s : FabrikSolver) (i : Nat)
    (hi : i < s.effector_chains.length)
    (hw : ((chain_get_tip_bone (s.effector_chains.getD i chain0)).effector.getD eff0).weight = 0)
    (HgL : ∀ (v : Vec3) (a b c : Nat),
      env.g2l (env.l2g v a b) b c = env.l2g v a c)
    (HlL : ∀ (v : Vec3) (a b c : Nat),
      env.l2g (env.l2g v a b) b c = env.l2g v a c)
    (Hnorm : ∀ v : Vec3, vmulScalar (P.vnormalize v) (P.vlen v) = v) :
    (calculate_target_data P env s).target_positions[i]?
      = some (env.l2g
          (chain_get_tip_bone (s.effector_chains.getD i chain0)).position
          (chain_get_tip_bone (s.effector_chains.getD i chain0)).id
          (chain_get_base_bone s.chain_tree).parent) := by
  simp only [calculate_target_data, List.getElem?_map]
  rw [List.getElem?_eq_getElem hi, List.getD_eq_getElem s.effector_chains chain0 hi]
  rw [List.getD_eq_getElem s.effector_chains chain0 hi] at hw
  simp only [Option.map_some']
  rw [calcTargetForChain_weight_zero P env s.root_bone
    (chain_get_base_bone s.chain_tree) _ hw HgL HlL Hnorm]

/-- Tip bone of the C4 witness: effector with weight 0 and the smoothing
feature enabled. -/
def tipBoneW0 : Bone :=
  { bone0 with id := 7, effector := some ⟨⟨1, 2, 3⟩, 0, true⟩ }

/-- Effector chain of the C4 witness. -/
def ecW0 : Chain := Chain.mk [tipBoneW0] ChainList.nil

/-- Solver of the C4 witness. -/
def sW0 : FabrikSolver :=
  ⟨Chain.mk [bone0] ChainList.nil, [ecW0], [vzero], bone0, ⟨1, 0⟩⟩

/-- Witness for C4 at a concrete weight-0 effector (smoothing enabled),
identity transforms and trivial primitives. -/
theorem calculate_target_data_weight_zero_witness :
    (0 < sW0.effector_chains.length)
    ∧ ((chain_get_tip_bone (sW0.effector_chains.getD 0 chain0)).effector.getD eff0).weight = 0
    ∧ (∀ (v : Vec3) (a b c : Nat),
        idEnv.g2l (idEnv.l2g v a b) b c = idEnv.l2g v a c)
    ∧ (∀ (v : Vec3) (a b c : Nat),
        idEnv.l2g (idEnv.l2g v a b) b c = idEnv.l2g v a c)
    ∧ (∀ v : Vec3, vmulScalar (onePrims.vnormalize v) (onePrims.vlen v) = v)
    ∧ (calculate_target_data onePrims idEnv sW0).target_positions[0]?
        = some (idEnv.l2g
            (chain_get_tip_bone (sW0.effector_chains.getD 0 chain0)).position
            (chain_get_tip_bone (sW0.effector_chains.getD 0 chain0)).id
            (chain_get_base_bone sW0.chain_tree).parent) :=
  ⟨by decide, by decide,
   fun _ _ _ _ => rfl, fun _ _ _ _ => rfl,
   fun v => by cases v; simp [vmulScalar, onePrims],
   calculate_target_data_weight_zero onePrims idEnv sW0 0 (by decide) (by decide)
     (fun _ _ _ _ => rfl) (fun _ _ _ _ => rfl)
     (fun v => by cases v; simp [vmulScalar, onePrims])⟩

theorem calcTargetForChain_weight_one_no_smoothing
    (P : GeomPrims) (env : TransformEnv) (root_bone base_bone : Bone)
    (ec : Chain)
    (hw : ((chain_get_tip_bone ec).effector.getD eff0).weight = 1)
    (hf : ((chain_get_tip_bone ec).effector.getD eff0).features_weight_nlerp = false) :
    calcTargetForChain P env root_bone base_bone ec
      = env.g2l ((chain_get_tip_bone ec).effector.getD eff0).target_position
          root_bone.parent base_bone.parent := by
  simp only [calcTargetForChain, hw, hf, lerp_weight_one, Bool.false_eq_true,
    if_false]

/-- Claim C5: in `calculate_target_data`, for every effector whose weight is
1 and whose distance-preserving-smoothing feature flag is off, the stored
actual target equals the effector's configured target position transformed
into the base bone's parent space, exactly, with no blending residue. -/
theorem calculate_target_data_weight_one_no_smoothing
    (P : GeomPrims) (env : TransformEnv) (s : FabrikSolver) (i : Nat)
    (hi : i < s.effector_chains.length)
    (hw : ((chain_get_tip_bone (s.effector_chains.getD i chain0)).effector.getD eff0).weight = 1)
    (hf : ((chain_get_tip_bone (s.effector_chains.getD i chain0)).effector.getD
            eff0).features_weight_nlerp = false) :
    (calculate_target_data P env s).target_positions[i]?
      = some (env.g2l
          ((chain_get_tip_bone (s.effector_chains.getD i chain0)).effector.getD
            eff0).target_position
          s.root_bone.parent (chain_get_base_bone s.chain_tree).parent) := by
  simp only [calculate_target_data, List.getElem?_map]
  rw [List.getElem?_eq_getElem hi, List.getD_eq_getElem s.effector_chains chain0 hi]
  rw [List.getD_eq_getElem s.effector_chains chain0 hi] at hw hf
  simp only [Option.map_some']
  rw [calcTargetForChain_weight_one_no_smoothing P env s.root_bone
    (chain_get_base_bone s.chain_tree) _ hw hf]

/-- Tip bone of the C5 witness: effector with weight 1 and smoothing off. -/
def tipBoneW1 : Bone :=
  { bone0 with id := 9, effector := some ⟨⟨4, 5, 6⟩, 1, false⟩ }

/-- Effector chain of the C5 witness. -/
def ecW1 : Chain := Chain.mk [tipBoneW1] ChainList.nil

/-- Solver of the C5 witness. -/
def sW1 : FabrikSolver :=
  ⟨Chain.mk [bone0] ChainList.nil, [ecW1], [vzero], bone0, ⟨1, 0⟩⟩

/-- Witness for C5 at a concrete weight-1, smoothing-off effector. -/
theorem calculate_target_data_weight_one_no_smoothing_witness :
    (0 < sW1.effector_chains.length)
    ∧ ((chain_get_tip_bone (sW1.effector_chains.getD 0 chain0)).effector.getD eff0).weight = 1
    ∧ ((chain_get_tip_bone (sW1.effector_chains.getD 0 chain0)).effector.getD
          eff0).features_weight_nlerp = false
    ∧ (calculate_target_data onePrims idEnv sW1).target_positions[0]?
        = some (idEnv.g2l
            ((chain_get_tip_bone (sW1.effector_chains.getD 0 chain0)).effector.getD
              eff0).target_position
            sW1.root_bone.parent (chain_get_base_bone sW1.chain_tree).parent) :=
  ⟨by decide, by decide, by decide,
   calculate_target_data_weight_one_no_smoothing onePrims idEnv sW1 0
     (by decide) (by decide) (by decide)⟩

mutual
theorem store_eq_postorder_leaves : (c : Chain) →
    store_effector_bones_recursive c = (chainsPostorder c).filter isLeafChain
  | .mk bones children => by
      cases children with
      | nil =>
          simp [store_effector_bones_recursive, chainsPostorder, chain_child_count,
            Chain.children, clLength, isLeafChain,
            store_eq_postorder_leaves_list ChainList.nil]
      | cons c cs =>
          simp [store_effector_bones_recursive, chainsPostorder, chain_child_count,
            Chain.children, clLength, isLeafChain,
            store_eq_postorder_leaves_list (ChainList.cons c cs)]

theorem store_eq_postorder_leaves_list : (cs : ChainList) →
    storeEffectorChildren cs = (chainsPostorderList cs).filter isLeafChain
  | .nil => by simp [storeEffectorChildren, chainsPostorderList]
  | .cons c cs => by
      simp [storeEffectorChildren, chainsPostorderList,
        store_eq_postorder_leaves c, store_eq_postorder_leaves_list cs]
end

mutual
theorem store_length_eq_leaf_count : (c : Chain) →
    (store_effector_bones_recursive c).length = count_leaf_chains c
  | .mk bones children => by
      cases children with
      | nil =>
          simp [store_effector_bones_recursive, storeEffectorChildren,
            chain_child_count, Chain.children, clLength, count_leaf_chains]
      | cons c cs =>
          simp [store_effector_bones_recursive, chain_child_count,
            Chain.children, clLength, count_leaf_chains,
            store_length_eq_leaf_count_list (ChainList.cons c cs)]

theorem store_length_eq_leaf_count_list : (cs : ChainList) →
    (storeEffectorChildren cs).length = countLeafChainsList cs
  | .nil => by simp [storeEffectorChildren, countLeafChainsList]
  | .cons c cs => by
      simp [storeEffectorChildren, countLeafChainsList,
        store_length_eq_leaf_count c, store_length_eq_leaf_count_list cs]
end

/-- Claim C7: after `store_effector_chains` runs on a built chain tree, the
effector-chain array contains exactly the leaf chains (chains with zero
children) of the tree in depth-first, children-before-self (post-order)
traversal order, and the number of entries equals the number of leaf chains
— which per spec §4.1 is `num_effectors` — so the count-match assertion at
line 82 cannot fire. -/
theorem store_effector_chains_leaves_postorder_and_count (c : Chain) :
    store_effector_bones_recursive c = (chainsPostorder c).filter isLeafChain
    ∧ (store_effector_bones_recursive c).length = count_leaf_chains c :=
  ⟨store_eq_postorder_leaves c, store_length_eq_leaf_count c⟩

mutual
theorem validate_poles_recursive_spec : (c : Chain) →
    validate_poles_recursive c
      = ((misplacedPoleBones c).length,
         (misplacedPoleBones c).map (fun b => LogMsg.poleWarn b.id))
  | .mk bones children => by
      simp [validate_poles_recursive, misplacedPoleBones,
        validate_poles_children_spec children]

theorem validate_poles_children_spec : (cs : ChainList) →
    validatePolesChildren cs
      = ((misplacedPoleBonesList cs).length,
         (misplacedPoleBonesList cs).map (fun b => LogMsg.poleWarn b.id))
  | .nil => by simp [validatePolesChildren, misplacedPoleBonesList]
  | .cons c cs => by
      simp [validatePolesChildren, misplacedPoleBonesList,
        validate_poles_recursive_spec c, validate_poles_children_spec cs]
end

/-- Claim C8: `validate_poles` emits exactly one warning for each bone that
carries a pole constraint and is not the tip bone of its chain, plus exactly
one additional summary warning when that count is at least one; when every
pole sits on a tip bone it emits zero warnings.  The C function takes the
solver by `const` pointer and only logs, so it alters no solver state and
never aborts; the embedding accordingly is a total function returning only
the emitted messages. -/
theorem validate_poles_emits_one_warning_per_misplaced_pole (c : Chain) :
    validate_poles c
      = (misplacedPoleBones c).map (fun b => LogMsg.poleWarn b.id)
        ++ (if (misplacedPoleBones c).length = 0 then []
            else [LogMsg.poleSummary])
    ∧ (validate_poles c).length
      = (misplacedPoleBones c).length
        + (if (misplacedPoleBones c).length = 0 then 0 else 1) := by
  have h := validate_poles_recursive_spec c
  constructor
  · simp only [validate_poles, h]
    by_cases h0 : (misplacedPoleBones c).length = 0
    · simp [h0]
    · simp [h0]
  · simp only [validate_poles, h]
    by_cases h0 : (misplacedPoleBones c).length = 0
    · simp [h0]
    · simp [h0]

/-- Claim C9: `fabrik_init` returns a failure result whenever chain-tree
building or either buffer allocation fails, and on every failure path it
deinitializes the chain tree and frees any buffer allocated earlier on that
path (the effector-chain buffer is only allocated — and is then freed — on
the path where the target-position allocation fails), leaving no
half-initialized solver. -/
theorem fabrik_init_failure_tears_down
    (buildOk allocEC allocTP : Bool)
    (h : buildOk = false ∨ allocEC = false ∨ allocTP = false) :
    (fabrik_init buildOk allocEC allocTP).1 = -1
    ∧ InitEvent.chainTreeDeinit ∈ (fabrik_init buildOk allocEC allocTP).2
    ∧ (buildOk = true → allocEC = true →
        InitEvent.freeEffectorChains ∈ (fabrik_init buildOk allocEC allocTP).2) := by
  cases buildOk <;> cases allocEC <;> cases allocTP <;>
    simp_all [fabrik_init]

/-- Witness for C9 on the path where the target-position allocation fails. -/
theorem fabrik_init_failure_tears_down_witness :
    (true = false ∨ true = false ∨ false = false)
    ∧ ((fabrik_init true true false).1 = -1
      ∧ InitEvent.chainTreeDeinit ∈ (fabrik_init true true false).2
      ∧ (true = true → true = true →
          InitEvent.freeEffectorChains ∈ (fabrik_init true true false).2)) :=
  ⟨by decide,
   fabrik_init_failure_tears_down true true false (by decide)⟩
